import Mathlib

/-!
Verification of the suggestion-lifecycle core (core/domain/suggestion_services.py).

The services module is embedded shallowly: the persistent stores become
association lists inside an explicit `State`, every service function becomes a
pure function `... → Result` returning the outcome together with the state as
it stands when the function returns (or raises).  External collaborators
(exploration fetch, markup validation, e-mail, identity) are modelled at their
interface boundary through `Env` and boolean fields of `Change`.

The `Suggestion` and `UserContributionScoring` entity operations live outside
the sources at hand; those few definitions are modelled from the spec and say
so in their doc comments.
-/

/-- Status of a suggestion: the closed set of workflow states. -/
inductive Status where
  | inReview
  | accepted
  | rejected
  deriving DecidableEq, Repr

/-- The variant-specific change payload.  The shape/validation outcomes of the
external validators are carried as boolean fields, modelling the collaborator
contracts at their boundary:
* `validShape` — result of the entity's pre_update_validate shape check;
* `preAcceptOk` — result of the entity's pre_accept_validate;
* `htmlOk` — whether validate_math_tags_in_html_with_attribute_math_content
  returns an empty error list on the change's concatenated HTML. -/
structure Change where
  state_name : String
  content_id : String
  content_html : String
  language_code : String
  validShape : Bool
  preAcceptOk : Bool
  htmlOk : Bool
  deriving DecidableEq, Repr

/-- One suggestion record, mirroring the fields of GeneralSuggestionModel that
the services module reads and writes. -/
structure Suggestion where
  suggestion_id : String
  suggestion_type : String
  target_type : String
  target_id : String
  target_version_at_submission : Nat
  status : Status
  author_id : String
  final_reviewer_id : Option String
  change : Change
  score_category : String
  deriving DecidableEq, Repr

/-- Modelled from the spec: a suggestion is handled iff its status has left
in-review (the entity's is_handled property; the entity class is an external
dependency of the services module). -/
def Suggestion.is_handled (sg : Suggestion) : Bool :=
  sg.status != Status.inReview

/-- One (user, category) scoring record (UserContributionScoringModel). -/
structure UserContributionScoring where
  user_id : String
  score_category : String
  score : Int
  onboard_reviewer_email_sent : Bool
  deriving DecidableEq, Repr

/-- Association-list get: the keyed-record-store read. -/
def alGet {κ α : Type} [DecidableEq κ] : List (κ × α) → κ → Option α
  | [], _ => none
  | (k', v) :: rest, k => if k' = k then some v else alGet rest k

/-- Association-list put: the keyed-record-store write (replace or insert). -/
def alPut {κ α : Type} [DecidableEq κ] (l : List (κ × α)) (k : κ) (v : α) :
    List (κ × α) :=
  match l with
  | [] => [(k, v)]
  | (k', v') :: rest =>
      if k' = k then (k, v) :: rest else (k', v') :: alPut rest k v

/-- Batch write: sequential puts, the model of put_multi. -/
def alPutMany {κ α : Type} [DecidableEq κ] (l : List (κ × α))
    (ps : List (κ × α)) : List (κ × α) :=
  ps.foldl (fun acc p => alPut acc p.1 p.2) l

/-- The whole persistent world touched by the services module.
`threads` records ids of opened feedback threads, `messages` the
(thread, text) messages posted, `emails` the (user, category) onboarding
e-mails dispatched, `commits` the (target, message) applications of accepted
changes to target content. -/
structure State where
  suggestions : List (String × Suggestion)
  scorings : List ((String × String) × UserContributionScoring)
  threads : List String
  messages : List (String × String)
  emails : List (String × String)
  commits : List (String × String)
  nextThreadId : Nat
  deriving DecidableEq, Repr

/-- The empty initial world. -/
def initState : State :=
  { suggestions := [], scorings := [], threads := [], messages := [],
    emails := [], commits := [], nextThreadId := 0 }

/-- The suggestion-type and score-type constants of the storage layer. -/
def SUGGESTION_TYPE_EDIT_STATE_CONTENT : String := "edit_exploration_state_content"

def SUGGESTION_TYPE_TRANSLATE_CONTENT : String := "translate_content"

def SUGGESTION_TYPE_ADD_QUESTION : String := "add_question"

def TARGET_TYPE_EXPLORATION : String := "exploration"

def SCORE_TYPE_CONTENT : String := "content"

def SCORE_TYPE_TRANSLATION : String := "translation"

def SCORE_TYPE_QUESTION : String := "question"

def SCORE_CATEGORY_DELIMITER : String := "."

def DEFAULT_SUGGESTION_THREAD_SUBJECT : String := "Suggestion from a user"

/-- Modelled from the spec: the fixed award amount added to the author's score
on acceptance (feconf constant, external to the module at hand). -/
def INCREMENT_SCORE_OF_AUTHOR_BY : Int := 1

/-- Modelled from the spec: the fixed minimum score required to review
(feconf constant, external to the module at hand). -/
def MINIMUM_SCORE_REQUIRED_TO_REVIEW : Int := 10

/-- Modelled from the spec: eligibility of a scoring record — score at or
above the fixed threshold (the entity's can_user_review_category). -/
def UserContributionScoring.canReview (us : UserContributionScoring) : Bool :=
  decide (MINIMUM_SCORE_REQUIRED_TO_REVIEW ≤ us.score)

/-- Process-wide feature flags, passed in explicitly. -/
structure Config where
  enableRecordingOfScores : Bool
  sendSuggestionReviewRelatedEmails : Bool

/-- External collaborators at their interface boundary: target content fetch
(category and addressable HTML) and the identity service. -/
structure Env where
  explorationCategory : String → String
  contentHtml : String → String → String → String
  displayName : String → String

/-- The error taxonomy raised by the services module.  Each constructor is one
concrete raise site; Err.taxonomy maps them onto the spec's five classes. -/
inductive Err where
  | emptyCommitMessage
  | emptyReviewMessage
  | emptySummaryMessage
  | notFound (id : String)
  | alreadyHandled (id : String)
  | notYetHandled (id : String)
  | cannotResubmitAccepted (id : String)
  | invalidSuggestionType (t : String)
  | contentMismatch
  | invalidContent (id : String)
  | preAcceptFailed (id : String)
  | preUpdateFailed (id : String)
  deriving DecidableEq, Repr

/-- The spec's five caller-visible error classes (section 7). -/
inductive ErrClass where
  | validationError
  | notFoundClass
  | alreadyHandledClass
  | preconditionFailedClass
  | contentPolicyViolation
  deriving DecidableEq, Repr

/-- Mapping from concrete raise sites to the spec's taxonomy. -/
def Err.taxonomy : Err → ErrClass
  | .emptyCommitMessage => .preconditionFailedClass
  | .emptyReviewMessage => .preconditionFailedClass
  | .emptySummaryMessage => .preconditionFailedClass
  | .notFound _ => .notFoundClass
  | .alreadyHandled _ => .alreadyHandledClass
  | .notYetHandled _ => .preconditionFailedClass
  | .cannotResubmitAccepted _ => .preconditionFailedClass
  | .invalidSuggestionType _ => .validationError
  | .contentMismatch => .validationError
  | .invalidContent _ => .contentPolicyViolation
  | .preAcceptFailed _ => .validationError
  | .preUpdateFailed _ => .validationError

/-- Outcome of one service call: normal return, a raised domain error, or an
undefined crash (an attribute access on None).  In every case the state the
world is left in is carried alongside. -/
inductive Result where
  | ok (s : State)
  | err (e : Err) (s : State)
  | crash (s : State)
  deriving DecidableEq, Repr

/-- The state the world is left in after a call, however it ended. -/
def Result.state : Result → State
  | .ok s => s
  | .err _ s => s
  | .crash s => s

/-- Whether a call returned normally. -/
def Result.isOk : Result → Bool
  | .ok _ => true
  | _ => false

/-- Python truthiness of `not s or not s.strip()`: the string is empty or
consists only of whitespace. -/
def isBlankStr (s : String) : Bool :=
  s.data.all (fun c => c.isWhitespace)

/-- Fresh feedback-thread id handed out by the thread collaborator. -/
def freshThreadId (n : Nat) : String :=
  "thread_" ++ Nat.repr n

/-- Read one suggestion from the store (get_suggestion_by_id). -/
def getSuggestion (s : State) (id : String) : Option Suggestion :=
  alGet s.suggestions id

/-- Read a batch positionally (get_suggestions_by_ids). -/
def getSuggestionsByIds (s : State) (ids : List String) :
    List (Option Suggestion) :=
  ids.map (getSuggestion s)

/-- Persist a batch of suggestion domain objects back into the store, keyed by
their own suggestion_id, in one batch write (_update_suggestions). -/
def updateSuggestions (s : State) (suggs : List Suggestion) : State :=
  { s with suggestions :=
      alPutMany s.suggestions (suggs.map (fun sg => (sg.suggestion_id, sg))) }

/-- Persist a single suggestion (_update_suggestion). -/
def updateSuggestion (s : State) (sg : Suggestion) : State :=
  updateSuggestions s [sg]

/-- The rewritten commit message of an accepted suggestion
(get_commit_message_for_suggestion), with the fixed accepted marker. -/
def getCommitMessageForSuggestion (author_username commit_message : String) :
    String :=
  "Accepted suggestion by" ++ " " ++ author_username ++ ": " ++ commit_message

/-- Fetch-or-default of the author's scoring record (get_user_scoring):
a zero score and an unsent onboarding flag when no record exists. -/
def get_user_scoring (s : State) (user_id score_category : String) :
    UserContributionScoring :=
  match alGet s.scorings (user_id, score_category) with
  | some r => r
  | none =>
      { user_id := user_id, score_category := score_category, score := 0,
        onboard_reviewer_email_sent := false }

/-- Persist a scoring record (_update_user_scoring): update in place when a
stored record exists, create it otherwise — in both cases the stored record
ends up equal to the domain object. -/
def updateUserScoring (s : State) (us : UserContributionScoring) : State :=
  { s with scorings := alPut s.scorings (us.user_id, us.score_category) us }

/-- The score-recording tail of accept_suggestion (lines guarded by
ENABLE_RECORDING_OF_SCORES): fetch-or-default, increment, conditionally send
the one-time onboarding e-mail and mark it sent, then persist. -/
def recordScore (cfg : Config) (s : State) (author_id score_category : String) :
    State :=
  if cfg.enableRecordingOfScores then
    let us := get_user_scoring s author_id score_category
    let us1 := { us with score := us.score + INCREMENT_SCORE_OF_AUTHOR_BY }
    if cfg.sendSuggestionReviewRelatedEmails && us1.canReview
        && !us1.onboard_reviewer_email_sent then
      updateUserScoring
        { s with emails := s.emails ++ [(author_id, score_category)] }
        { us1 with onboard_reviewer_email_sent := true }
    else
      updateUserScoring s us1
  else s

/-- create_suggestion: opens the feedback thread first, then derives the score
category per variant (raising on an unknown variant or on a translate-content
HTML mismatch), validates, and persists the new in-review record.  A non-
exploration target reaching the edit/translate branches leaves the fetched
exploration unbound in the source, hence the crash outcome there. -/
def create_suggestion (env : Env) (s : State)
    (suggestion_type target_type target_id : String)
    (target_version_at_submission : Nat) (author_id : String) (change : Change)
    (_description : Option String) : Result :=
  let thread_id := freshThreadId s.nextThreadId
  let s1 := { s with threads := s.threads ++ [thread_id],
                     nextThreadId := s.nextThreadId + 1 }
  let expCategory : Option String :=
    if target_type = TARGET_TYPE_EXPLORATION
    then some (env.explorationCategory target_id) else none
  let finish : String → Result := fun score_category =>
    let sugg : Suggestion :=
      { suggestion_id := thread_id, suggestion_type := suggestion_type,
        target_type := target_type, target_id := target_id,
        target_version_at_submission := target_version_at_submission,
        status := Status.inReview, author_id := author_id,
        final_reviewer_id := none, change := change,
        score_category := score_category }
    Result.ok { s1 with suggestions := alPut s1.suggestions thread_id sugg }
  if suggestion_type = SUGGESTION_TYPE_EDIT_STATE_CONTENT then
    match expCategory with
    | none => Result.crash s1
    | some cat =>
        finish (SCORE_TYPE_CONTENT ++ SCORE_CATEGORY_DELIMITER ++ cat)
  else if suggestion_type = SUGGESTION_TYPE_TRANSLATE_CONTENT then
    match expCategory with
    | none => Result.crash s1
    | some cat =>
        if env.contentHtml target_id change.state_name change.content_id
            ≠ change.content_html then
          Result.err Err.contentMismatch s1
        else
          finish (SCORE_TYPE_TRANSLATION ++ SCORE_CATEGORY_DELIMITER ++ cat)
  else if suggestion_type = SUGGESTION_TYPE_ADD_QUESTION then
    finish (SCORE_TYPE_QUESTION ++ SCORE_CATEGORY_DELIMITER ++ target_id)
  else
    Result.err (Err.invalidSuggestionType suggestion_type) s1

/-- accept_suggestion: blank-commit check, fetch, handled check, pre-accept
validation, markup-safety check; then status → accepted, reviewer recorded,
commit applied to the target, record persisted, closing message posted, and
the score-recording tail run. -/
def accept_suggestion (env : Env) (cfg : Config) (s : State)
    (suggestion_id reviewer_id commit_message review_message : String) :
    Result :=
  if isBlankStr commit_message then
    Result.err Err.emptyCommitMessage s
  else
    match getSuggestion s suggestion_id with
    | none => Result.err (Err.notFound suggestion_id) s
    | some sugg =>
      if sugg.is_handled then
        Result.err (Err.alreadyHandled suggestion_id) s
      else if !sugg.change.preAcceptOk then
        Result.err (Err.preAcceptFailed suggestion_id) s
      else if !sugg.change.htmlOk then
        Result.err (Err.invalidContent suggestion_id) s
      else
        let sugg1 := { sugg with status := Status.accepted,
                                 final_reviewer_id := some reviewer_id }
        let author_name := env.displayName sugg.author_id
        let commit := getCommitMessageForSuggestion author_name commit_message
        let s1 := { updateSuggestion
            { s with commits := s.commits ++ [(sugg.target_id, commit)] }
            sugg1 with }
        let s2 := { s1 with messages :=
            s1.messages ++ [(suggestion_id, review_message)] }
        Result.ok (recordScore cfg s2 sugg.author_id sugg.score_category)

/-- The validation loop of reject_suggestions: walk the batch in order and
raise at the first absent or already-handled entry, returning the fetched
domain objects otherwise. -/
def fetchAndValidate (s : State) : List String → Except Err (List Suggestion)
  | [] => Except.ok []
  | id :: rest =>
      match getSuggestion s id with
      | none => Except.error (Err.notFound id)
      | some sugg =>
          if sugg.is_handled then Except.error (Err.alreadyHandled id)
          else (fetchAndValidate s rest).map (fun l => sugg :: l)

/-- reject_suggestions: validate the whole batch, check the review message,
then flip every suggestion to rejected with the reviewer recorded, persist in
one batch write, and post one rejection message per thread. -/
def reject_suggestions (s : State) (suggestion_ids : List String)
    (reviewer_id review_message : String) : Result :=
  match fetchAndValidate s suggestion_ids with
  | Except.error e => Result.err e s
  | Except.ok suggs =>
    if review_message = "" then
      Result.err Err.emptyReviewMessage s
    else
      let suggs1 := suggs.map (fun sg =>
        { sg with status := Status.rejected,
                  final_reviewer_id := some reviewer_id })
      let s1 := updateSuggestions s suggs1
      Result.ok { s1 with messages :=
          s1.messages ++ suggestion_ids.map (fun id => (id, review_message)) }

/-- reject_suggestion: the single-id wrapper. -/
def reject_suggestion (s : State) (suggestion_id reviewer_id review_message :
    String) : Result :=
  reject_suggestions s [suggestion_id] reviewer_id review_message

/-- resubmit_rejected_suggestion: fetch (without a None guard), check the
summary, then the handled/accepted preconditions and the pre-update shape
check; on success replace the change, return to in-review (the reviewer id is
left untouched), persist, and post the summary to the thread.  An absent id
reaches the attribute access on None and crashes. -/
def resubmit_rejected_suggestion (s : State)
    (suggestion_id summary_message _author_id : String) (change : Change) :
    Result :=
  let suggOpt := getSuggestion s suggestion_id
  if summary_message = "" then
    Result.err Err.emptySummaryMessage s
  else
    match suggOpt with
    | none => Result.crash s
    | some sugg =>
      if !sugg.is_handled then
        Result.err (Err.notYetHandled suggestion_id) s
      else if sugg.status = Status.accepted then
        Result.err (Err.cannotResubmitAccepted suggestion_id) s
      else if !change.validShape then
        Result.err (Err.preUpdateFailed suggestion_id) s
      else
        let sugg1 := { sugg with change := change,
                                 status := Status.inReview }
        let s1 := updateSuggestion s sugg1
        Result.ok { s1 with messages :=
            s1.messages ++ [(suggestion_id, summary_message)] }

/-- One lifecycle operation, for quantifying over call sequences. -/
inductive Op where
  | createOp (suggestion_type target_type target_id : String)
      (target_version_at_submission : Nat) (author_id : String)
      (change : Change) (description : Option String)
  | acceptOp (suggestion_id reviewer_id commit_message review_message : String)
  | rejectOp (suggestion_ids : List String)
      (reviewer_id review_message : String)
  | resubmitOp (suggestion_id summary_message author_id : String)
      (change : Change)

/-- Dispatch one operation. -/
def applyOp (env : Env) (cfg : Config) (s : State) : Op → Result
  | .createOp st tt tid v a c d => create_suggestion env s st tt tid v a c d
  | .acceptOp id r cm rm => accept_suggestion env cfg s id r cm rm
  | .rejectOp ids r rm => reject_suggestions s ids r rm
  | .resubmitOp id sm a c => resubmit_rejected_suggestion s id sm a c

/-- The state left behind by one operation, whether it succeeded or failed. -/
def step (env : Env) (cfg : Config) (s : State) (op : Op) : State :=
  (applyOp env cfg s op).state

/-- Run a sequence of lifecycle operations. -/
def runOps (env : Env) (cfg : Config) : State → List Op → State
  | s, [] => s
  | s, op :: rest => runOps env cfg (step env cfg s op) rest

/-- A placeholder record, used only to express fetched batches with getD. -/
def dummySuggestion : Suggestion :=
  { suggestion_id := "", suggestion_type := "", target_type := "",
    target_id := "", target_version_at_submission := 0,
    status := Status.inReview, author_id := "", final_reviewer_id := none,
    change := { state_name := "", content_id := "", content_html := "",
                language_code := "", validShape := false,
                preAcceptOk := false, htmlOk := false },
    score_category := "" }

theorem alGet_alPut {κ α : Type} [DecidableEq κ] (l : List (κ × α)) (k : κ)
    (v : α) (j : κ) :
    alGet (alPut l k v) j = if k = j then some v else alGet l j := by
  induction l with
  | nil =>
      by_cases h : k = j <;> simp [alPut, alGet, h]
  | cons p rest ih =>
      obtain ⟨k', v'⟩ := p
      by_cases hk : k' = k
      · subst hk
        by_cases h : k' = j <;> simp [alPut, alGet, h]
      · by_cases h : k' = j
        · subst h
          have : ¬ k = k' := fun hh => hk hh.symm
          simp [alPut, alGet, hk, this]
        · simp [alPut, alGet, hk, h, ih]

theorem mem_alPut {κ α : Type} [DecidableEq κ] {l : List (κ × α)} {k : κ}
    {v : α} {p : κ × α} (h : p ∈ alPut l k v) : p = (k, v) ∨ p ∈ l := by
  induction l with
  | nil => simpa [alPut] using h
  | cons q rest ih =>
      obtain ⟨k', v'⟩ := q
      by_cases hk : k' = k
      · simp [alPut, hk] at h
        rcases h with h | h
        · exact Or.inl (by simp [h])
        · exact Or.inr (by simp [h])
      · simp [alPut, hk] at h
        rcases h with h | h
        · exact Or.inr (by simp [h])
        · rcases ih h with h1 | h1
          · exact Or.inl h1
          · exact Or.inr (by simp [h1])

theorem mem_alPutMany {κ α : Type} [DecidableEq κ] {ps l : List (κ × α)}
    {p : κ × α} (h : p ∈ alPutMany l ps) : p ∈ ps ∨ p ∈ l := by
  induction ps generalizing l with
  | nil => exact Or.inr (by simpa [alPutMany] using h)
  | cons q rest ih =>
      have h' : p ∈ alPutMany (alPut l q.1 q.2) rest := by
        simpa [alPutMany] using h
      rcases ih h' with h1 | h1
      · exact Or.inl (by simp [h1])
      · rcases mem_alPut h1 with h2 | h2
        · exact Or.inl (by simp [h2])
        · exact Or.inr h2

theorem alGet_mem {κ α : Type} [DecidableEq κ] {l : List (κ × α)} {k : κ}
    {v : α} (h : alGet l k = some v) : (k, v) ∈ l := by
  induction l with
  | nil => simp [alGet] at h
  | cons q rest ih =>
      obtain ⟨k', v'⟩ := q
      by_cases hk : k' = k
      · subst hk
        simp [alGet] at h
        simp [h]
      · simp [alGet, hk] at h
        simp [ih h]

theorem alGet_alPutMany_const {κ α : Type} [DecidableEq κ] (g : κ → α)
    (ids : List κ) (l : List (κ × α)) (j : κ) :
    alGet (alPutMany l (ids.map (fun k => (k, g k)))) j
      = if j ∈ ids then some (g j) else alGet l j := by
  induction ids generalizing l with
  | nil => simp [alPutMany]
  | cons k rest ih =>
      have hfold : alPutMany l ((k :: rest).map (fun k => (k, g k)))
          = alPutMany (alPut l k (g k)) (rest.map (fun k => (k, g k))) := by
        simp [alPutMany]
      rw [hfold, ih]
      by_cases hj : j ∈ rest
      · simp [hj]
      · by_cases hk : j = k
        · subst hk
          simp [hj, alGet_alPut]
        · have : ¬ k = j := fun hh => hk hh.symm
          simp [hj, hk, alGet_alPut, this]

/-- The one-way reviewer invariant an individual record keeps: a suggestion
that has left in-review carries a reviewer id. -/
def SuggOk (sg : Suggestion) : Prop :=
  sg.status ≠ Status.inReview → sg.final_reviewer_id.isSome = true

/-- Every stored suggestion keeps SuggOk. -/
def StoreOk (l : List (String × Suggestion)) : Prop :=
  ∀ p ∈ l, SuggOk p.2

/-- The reviewer invariant over the whole world. -/
def StoreInv (s : State) : Prop :=
  StoreOk s.suggestions

theorem storeOk_alPut {l : List (String × Suggestion)} {k : String}
    {v : Suggestion} (h : StoreOk l) (hv : SuggOk v) : StoreOk (alPut l k v) := by
  intro p hp
  rcases mem_alPut hp with h1 | h1
  · rw [h1]
    exact hv
  · exact h p h1

theorem storeOk_alPutMany {l ps : List (String × Suggestion)}
    (h : StoreOk l) (hps : ∀ q ∈ ps, SuggOk q.2) :
    StoreOk (alPutMany l ps) := by
  intro p hp
  rcases mem_alPutMany hp with h1 | h1
  · exact hps p h1
  · exact h p h1

theorem recordScore_suggestions (cfg : Config) (s : State)
    (a c : String) : (recordScore cfg s a c).suggestions = s.suggestions := by
  simp only [recordScore, updateUserScoring]
  split
  · split <;> rfl
  · rfl

theorem storeInv_create (env : Env) (s : State)
    (st tt tid : String) (v : Nat) (a : String) (c : Change)
    (d : Option String) (h : StoreInv s) :
    StoreInv (create_suggestion env s st tt tid v a c d).state := by
  simp only [create_suggestion]
  split
  · split
    · exact h
    · simp only [Result.state]
      apply storeOk_alPut h
      intro hst
      exact absurd rfl hst
  · split
    · split
      · exact h
      · split
        · exact h
        · simp only [Result.state]
          apply storeOk_alPut h
          intro hst
          exact absurd rfl hst
    · split
      · simp only [Result.state]
        apply storeOk_alPut h
        intro hst
        exact absurd rfl hst
      · exact h

theorem storeInv_accept (env : Env) (cfg : Config) (s : State)
    (id r cm rm : String) (h : StoreInv s) :
    StoreInv (accept_suggestion env cfg s id r cm rm).state := by
  simp only [accept_suggestion]
  split
  · exact h
  · split
    · exact h
    · split
      · exact h
      · split
        · exact h
        · split
          · exact h
          · simp only [Result.state, updateSuggestion, updateSuggestions]
            show StoreOk (recordScore _ _ _ _).suggestions
            rw [recordScore_suggestions]
            apply storeOk_alPutMany h
            intro q hq
            simp only [List.map_cons, List.map_nil, List.mem_singleton] at hq
            rw [hq]
            intro _
            rfl

theorem storeInv_reject (s : State) (ids : List String) (r rm : String)
    (h : StoreInv s) : StoreInv (reject_suggestions s ids r rm).state := by
  simp only [reject_suggestions]
  split
  · exact h
  · split
    · exact h
    · simp only [Result.state, updateSuggestions]
      apply storeOk_alPutMany h
      intro q hq
      simp only [List.mem_map] at hq
      obtain ⟨sg, hsg, hq⟩ := hq
      obtain ⟨sg0, _, hsg0⟩ := hsg
      rw [← hq]
      intro _
      rw [← hsg0]
      rfl

theorem storeInv_resubmit (s : State) (id sm a : String) (c : Change)
    (h : StoreInv s) :
    StoreInv (resubmit_rejected_suggestion s id sm a c).state := by
  simp only [resubmit_rejected_suggestion]
  split
  · exact h
  · split
    · exact h
    · split
      · exact h
      · split
        · exact h
        · split
          · exact h
          · simp only [Result.state, updateSuggestion, updateSuggestions]
            apply storeOk_alPutMany h
            intro q hq
            simp only [List.map_cons, List.map_nil, List.mem_singleton] at hq
            rw [hq]
            intro hst
            exact absurd rfl hst

theorem storeInv_step (env : Env) (cfg : Config) (s : State) (op : Op)
    (h : StoreInv s) : StoreInv (step env cfg s op) := by
  cases op with
  | createOp st tt tid v a c d => exact storeInv_create env s st tt tid v a c d h
  | acceptOp id r cm rm => exact storeInv_accept env cfg s id r cm rm h
  | rejectOp ids r rm => exact storeInv_reject s ids r rm h
  | resubmitOp id sm a c => exact storeInv_resubmit s id sm a c h

theorem storeInv_runOps (env : Env) (cfg : Config) (s : State) (ops : List Op)
    (h : StoreInv s) : StoreInv (runOps env cfg s ops) := by
  induction ops generalizing s with
  | nil => exact h
  | cons op rest ih => exact ih _ (storeInv_step env cfg s op h)

theorem storeInv_init : StoreInv initState := by
  intro p hp
  simp [initState] at hp

/-- The persisted onboarding flag for a (user, category), false when no
scoring record exists. -/
def flagOf (s : State) (u c : String) : Bool :=
  (Option.map UserContributionScoring.onboard_reviewer_email_sent
    (alGet s.scorings (u, c))).getD false

/-- How many onboarding e-mails have ever been dispatched to (user, category). -/
def emailCount (s : State) (u c : String) : Nat :=
  (s.emails.filter (fun p => p = (u, c))).length

/-- Scoring-store well-formedness: each record sits under its own key. -/
def ScoringWF (s : State) : Prop :=
  ∀ p ∈ s.scorings, p.2.user_id = p.1.1 ∧ p.2.score_category = p.1.2

/-- The at-most-once e-mail invariant: never more than one onboarding e-mail
per (user, category), and once one was sent the persisted flag is set. -/
def EmailInv (s : State) : Prop :=
  ∀ u c, emailCount s u c ≤ 1 ∧ (1 ≤ emailCount s u c → flagOf s u c = true)

theorem get_user_scoring_key (s : State) (a c : String) (h : ScoringWF s) :
    (get_user_scoring s a c).user_id = a
      ∧ (get_user_scoring s a c).score_category = c := by
  unfold get_user_scoring
  cases hg : alGet s.scorings (a, c) with
  | none => exact ⟨rfl, rfl⟩
  | some r => exact (h _ (alGet_mem hg))

theorem get_user_scoring_flag (s : State) (a c : String) :
    (get_user_scoring s a c).onboard_reviewer_email_sent = flagOf s a c := by
  unfold get_user_scoring flagOf
  cases alGet s.scorings (a, c) <;> rfl

theorem flagOf_updateUserScoring (s : State) (us : UserContributionScoring)
    (u v : String) :
    flagOf (updateUserScoring s us) u v
      = if (us.user_id, us.score_category) = (u, v)
        then us.onboard_reviewer_email_sent else flagOf s u v := by
  unfold flagOf updateUserScoring
  simp only []
  rw [alGet_alPut]
  split <;> rfl

theorem emailCount_updateUserScoring (s : State)
    (us : UserContributionScoring) (u v : String) :
    emailCount (updateUserScoring s us) u v = emailCount s u v := rfl

theorem scoringWF_updateUserScoring (s : State)
    (us : UserContributionScoring) (h : ScoringWF s) :
    ScoringWF (updateUserScoring s us) := by
  intro p hp
  rcases mem_alPut hp with h1 | h1
  · rw [h1]
    exact ⟨rfl, rfl⟩
  · exact h p h1

theorem scoringWF_recordScore (cfg : Config) (s : State) (a c : String)
    (h : ScoringWF s) : ScoringWF (recordScore cfg s a c) := by
  simp only [recordScore]
  split
  · split
    · apply scoringWF_updateUserScoring
      intro p hp
      exact h p hp
    · exact scoringWF_updateUserScoring _ _ h
  · exact h

theorem flagOf_recordScore (cfg : Config) (s : State) (a c u v : String)
    (hwf : ScoringWF s) (hf : flagOf s u v = true) :
    flagOf (recordScore cfg s a c) u v = true := by
  have hkey := get_user_scoring_key s a c hwf
  have hfl := get_user_scoring_flag s a c
  simp only [recordScore]
  split
  · split
    · rw [flagOf_updateUserScoring]
      split
      · rfl
      · show flagOf { s with emails := _ } u v = true
        unfold flagOf at hf ⊢
        exact hf
    · rw [flagOf_updateUserScoring]
      split
      case isTrue heq =>
        simp only [] at heq
        rw [hkey.1, hkey.2] at heq
        obtain ⟨rfl, rfl⟩ := Prod.mk.injEq .. ▸ heq
        show (get_user_scoring s a c).onboard_reviewer_email_sent = true
        rw [hfl]
        exact hf
      · exact hf
  · exact hf

theorem emailCount_append (s : State) (a c u v : String) :
    emailCount { s with emails := s.emails ++ [(a, c)] } u v
      = emailCount s u v + (if (a, c) = (u, v) then 1 else 0) := by
  unfold emailCount
  simp only [List.filter_append, List.length_append]
  congr 1
  by_cases h : (a, c) = (u, v) <;> simp [h]

/-- Full effect of the score-recording tail on e-mails and flags: either no
e-mail is dispatched and every flag and count is untouched (up to the flag of
the touched key being rewritten to its own old value), or the one-time e-mail
goes to exactly (author, category), whose flag goes false → true, everything
else untouched. -/
theorem recordScore_cases (cfg : Config) (s : State) (a c : String)
    (hwf : ScoringWF s) :
    (∀ u v, emailCount (recordScore cfg s a c) u v = emailCount s u v
        ∧ flagOf (recordScore cfg s a c) u v = flagOf s u v)
    ∨ (flagOf s a c = false
        ∧ flagOf (recordScore cfg s a c) a c = true
        ∧ emailCount (recordScore cfg s a c) a c = emailCount s a c + 1
        ∧ ∀ u v, (u, v) ≠ (a, c) →
            emailCount (recordScore cfg s a c) u v = emailCount s u v
              ∧ flagOf (recordScore cfg s a c) u v = flagOf s u v) := by
  have hkey := get_user_scoring_key s a c hwf
  have hfl := get_user_scoring_flag s a c
  simp only [recordScore]
  split
  · split
    case isTrue hcond =>
      refine Or.inr ?_
      simp only [Bool.and_eq_true, Bool.not_eq_true'] at hcond
      have honb : (get_user_scoring s a c).onboard_reviewer_email_sent
          = false := hcond.2
      refine ⟨by rw [← hfl]; exact honb, ?_, ?_, ?_⟩
      · rw [flagOf_updateUserScoring]
        simp [hkey.1, hkey.2]
      · rw [emailCount_updateUserScoring, emailCount_append]
        simp
      · intro u v huv
        constructor
        · rw [emailCount_updateUserScoring, emailCount_append]
          have : ¬ (a, c) = (u, v) := fun hh => huv hh.symm
          simp [this]
        · rw [flagOf_updateUserScoring]
          have : ¬ ((get_user_scoring s a c).user_id,
              (get_user_scoring s a c).score_category) = (u, v) := by
            rw [hkey.1, hkey.2]
            exact fun hh => huv hh.symm
          simp only [this, if_false]
          unfold flagOf
          rfl
    case isFalse hcond =>
      refine Or.inl (fun u v => ⟨emailCount_updateUserScoring .., ?_⟩)
      rw [flagOf_updateUserScoring]
      split
      case isTrue heq =>
        have h1 : ((get_user_scoring s a c).user_id,
            (get_user_scoring s a c).score_category) = (u, v) := heq
        rw [hkey.1, hkey.2] at h1
        have h2 : a = u := congrArg Prod.fst h1
        have h3 : c = v := congrArg Prod.snd h1
        subst h2
        subst h3
        exact hfl
      · rfl
  · exact Or.inl (fun u v => ⟨rfl, rfl⟩)

theorem create_state_fields (env : Env) (s : State) (st tt tid : String)
    (v : Nat) (a : String) (c : Change) (d : Option String) :
    ((create_suggestion env s st tt tid v a c d).state).scorings = s.scorings
    ∧ ((create_suggestion env s st tt tid v a c d).state).emails = s.emails := by
  simp only [create_suggestion]
  repeat' split
  all_goals exact ⟨rfl, rfl⟩

theorem reject_state_fields (s : State) (ids : List String) (r rm : String) :
    ((reject_suggestions s ids r rm).state).scorings = s.scorings
    ∧ ((reject_suggestions s ids r rm).state).emails = s.emails := by
  simp only [reject_suggestions]
  repeat' split
  all_goals exact ⟨rfl, rfl⟩

theorem resubmit_state_fields (s : State) (id sm a : String) (c : Change) :
    ((resubmit_rejected_suggestion s id sm a c).state).scorings = s.scorings
    ∧ ((resubmit_rejected_suggestion s id sm a c).state).emails = s.emails := by
  simp only [resubmit_rejected_suggestion]
  repeat' split
  all_goals exact ⟨rfl, rfl⟩

theorem accept_state_cases (env : Env) (cfg : Config) (s : State)
    (id r cm rm : String) :
    (accept_suggestion env cfg s id r cm rm).state = s
    ∨ ∃ s2 a c, (accept_suggestion env cfg s id r cm rm).state
          = recordScore cfg s2 a c
        ∧ s2.scorings = s.scorings ∧ s2.emails = s.emails := by
  simp only [accept_suggestion]
  split
  · exact Or.inl rfl
  · split
    · exact Or.inl rfl
    · split
      · exact Or.inl rfl
      · split
        · exact Or.inl rfl
        · split
          · exact Or.inl rfl
          · exact Or.inr ⟨_, _, _, rfl, rfl, rfl⟩

theorem scoringWF_of_eq {s s' : State} (he : s'.scorings = s.scorings)
    (h : ScoringWF s) : ScoringWF s' := by
  intro p hp
  rw [he] at hp
  exact h p hp

theorem flagOf_of_eq {s s' : State} (he : s'.scorings = s.scorings)
    (u v : String) : flagOf s' u v = flagOf s u v := by
  unfold flagOf
  rw [he]

theorem emailCount_of_eq {s s' : State} (he : s'.emails = s.emails)
    (u v : String) : emailCount s' u v = emailCount s u v := by
  unfold emailCount
  rw [he]

theorem emailInv_of_eq {s s' : State} (hsc : s'.scorings = s.scorings)
    (hem : s'.emails = s.emails) (h : EmailInv s) : EmailInv s' := by
  intro u v
  rw [emailCount_of_eq hem, flagOf_of_eq hsc]
  exact h u v

theorem scoringWF_step (env : Env) (cfg : Config) (s : State) (op : Op)
    (h : ScoringWF s) : ScoringWF (step env cfg s op) := by
  cases op with
  | createOp st tt tid v a c d =>
      exact scoringWF_of_eq (create_state_fields env s st tt tid v a c d).1 h
  | rejectOp ids r rm =>
      exact scoringWF_of_eq (reject_state_fields s ids r rm).1 h
  | resubmitOp id sm a c =>
      exact scoringWF_of_eq (resubmit_state_fields s id sm a c).1 h
  | acceptOp id r cm rm =>
      show ScoringWF (accept_suggestion env cfg s id r cm rm).state
      rcases accept_state_cases env cfg s id r cm rm with hc | ⟨s2, a, c, hc, h1, _⟩
      · rw [hc]
        exact h
      · rw [hc]
        exact scoringWF_recordScore _ _ _ _ (scoringWF_of_eq h1 h)

theorem flagOf_step_mono (env : Env) (cfg : Config) (s : State) (op : Op)
    (u v : String) (hwf : ScoringWF s) (hf : flagOf s u v = true) :
    flagOf (step env cfg s op) u v = true := by
  cases op with
  | createOp st tt tid ver a c d =>
      exact (flagOf_of_eq (create_state_fields env s st tt tid ver a c d).1
        u v).trans hf
  | rejectOp ids r rm =>
      exact (flagOf_of_eq (reject_state_fields s ids r rm).1 u v).trans hf
  | resubmitOp id sm a c =>
      exact (flagOf_of_eq (resubmit_state_fields s id sm a c).1 u v).trans hf
  | acceptOp id r cm rm =>
      show flagOf (accept_suggestion env cfg s id r cm rm).state u v = true
      rcases accept_state_cases env cfg s id r cm rm with hc | ⟨s2, a, c, hc, h1, _⟩
      · rw [hc]
        exact hf
      · rw [hc]
        apply flagOf_recordScore cfg s2 a c u v (scoringWF_of_eq h1 hwf)
        rw [flagOf_of_eq h1 u v]
        exact hf

theorem emailInv_step (env : Env) (cfg : Config) (s : State) (op : Op)
    (hwf : ScoringWF s) (h : EmailInv s) : EmailInv (step env cfg s op) := by
  cases op with
  | createOp st tt tid ver a c d =>
      have hfe := create_state_fields env s st tt tid ver a c d
      exact emailInv_of_eq hfe.1 hfe.2 h
  | rejectOp ids r rm =>
      have hfe := reject_state_fields s ids r rm
      exact emailInv_of_eq hfe.1 hfe.2 h
  | resubmitOp id sm a c =>
      have hfe := resubmit_state_fields s id sm a c
      exact emailInv_of_eq hfe.1 hfe.2 h
  | acceptOp id r cm rm =>
      show EmailInv (accept_suggestion env cfg s id r cm rm).state
      rcases accept_state_cases env cfg s id r cm rm with hc | ⟨s2, a, c, hc, h1, h2⟩
      · rw [hc]
        exact h
      · rw [hc]
        have hwf2 : ScoringWF s2 := scoringWF_of_eq h1 hwf
        have hinv2 : EmailInv s2 := emailInv_of_eq h1 h2 h
        rcases recordScore_cases cfg s2 a c hwf2 with hnone | ⟨hfalse, htrue, hplus, hrest⟩
        · intro u v
          rw [(hnone u v).1, (hnone u v).2]
          exact hinv2 u v
        · intro u v
          by_cases huv : (u, v) = (a, c)
          · have hu : u = a := congrArg Prod.fst huv
            have hv : v = c := congrArg Prod.snd huv
            subst hu
            subst hv
            have hzero : emailCount s2 u v = 0 := by
              by_contra h0
              have h1le : 1 ≤ emailCount s2 u v := Nat.one_le_iff_ne_zero.mpr h0
              have := (hinv2 u v).2 h1le
              rw [hfalse] at this
              cases this
            constructor
            · rw [hplus, hzero]
            · intro _
              exact htrue
          · rcases hrest u v huv with ⟨hce, hfe⟩
            rw [hce, hfe]
            exact hinv2 u v

theorem storeInv_initState : StoreInv initState := by
  intro p hp
  simp [initState] at hp

theorem scoringWF_initState : ScoringWF initState := by
  intro p hp
  simp [initState] at hp

theorem emailInv_initState : EmailInv initState := by
  intro u c
  refine ⟨?_, ?_⟩ <;> simp [emailCount, initState]

theorem scoring_invs_runOps (env : Env) (cfg : Config) (s : State)
    (ops : List Op) (h : ScoringWF s ∧ EmailInv s) :
    ScoringWF (runOps env cfg s ops) ∧ EmailInv (runOps env cfg s ops) := by
  induction ops generalizing s with
  | nil => exact h
  | cons op rest ih =>
      exact ih _ ⟨scoringWF_step env cfg s op h.1,
        emailInv_step env cfg s op h.1 h.2⟩

/-- Concrete collaborator environment used by the witnesses below. -/
def envW : Env :=
  { explorationCategory := fun _ => "Algebra",
    contentHtml := fun _ _ _ => "<p>Hi</p>",
    displayName := fun u => u }

/-- Concrete feature flags used by the witnesses below. -/
def cfgW : Config :=
  { enableRecordingOfScores := true,
    sendSuggestionReviewRelatedEmails := true }

/-- Concrete change payload used by the witnesses below. -/
def cW : Change :=
  { state_name := "Intro", content_id := "c1", content_html := "<p>Hi</p>",
    language_code := "en", validShape := true, preAcceptOk := true,
    htmlOk := true }

/-- Create an add-question suggestion, reject it, resubmit it. -/
def opsW : List Op :=
  [Op.createOp SUGGESTION_TYPE_ADD_QUESTION "skill" "skill1" 1 "author1" cW
     none,
   Op.rejectOp ["thread_0"] "rev1" "needs work",
   Op.resubmitOp "thread_0" "resubmitting" "author1" cW]

/-- The single create of opsW. -/
def opsW1 : List Op :=
  [Op.createOp SUGGESTION_TYPE_ADD_QUESTION "skill" "skill1" 1 "author1" cW
     none]

/-- The create and reject of opsW, stopping before the resubmit. -/
def opsW2 : List Op :=
  [Op.createOp SUGGESTION_TYPE_ADD_QUESTION "skill" "skill1" 1 "author1" cW
     none,
   Op.rejectOp ["thread_0"] "rev1" "needs work"]

/-- The suggestion record produced by the create of opsW1. -/
def sgW : Suggestion :=
  { suggestion_id := "thread_0",
    suggestion_type := SUGGESTION_TYPE_ADD_QUESTION, target_type := "skill",
    target_id := "skill1", target_version_at_submission := 1,
    status := Status.inReview, author_id := "author1",
    final_reviewer_id := none, change := cW,
    score_category := "question.skill1" }

/-- A world holding one scoring record whose onboarding flag is set. -/
def sFlagW : State :=
  { initState with scorings :=
      [(("u1", "cat1"),
        { user_id := "u1", score_category := "cat1", score := 5,
          onboard_reviewer_email_sent := true })] }

/-- A rejected suggestion and a world storing it, for the witnesses below. -/
def sgRejW : Suggestion :=
  { sgW with status := Status.rejected, final_reviewer_id := some "rev1" }

/-- World holding the rejected suggestion sgRejW. -/
def sRejW : State :=
  { initState with suggestions := [("thread_0", sgRejW)] }

/-- An accepted suggestion and a world storing it, for the witnesses below. -/
def sgAccW : Suggestion :=
  { sgW with status := Status.accepted, final_reviewer_id := some "rev1" }

/-- World holding the accepted suggestion sgAccW. -/
def sAccW : State :=
  { initState with suggestions := [("thread_0", sgAccW)] }

/-- The witness change whose translation HTML mismatches the content. -/
def cMismatchW : Change :=
  { cW with content_html := "<p>Bye</p>" }

/-- C1: the claimed three-way equivalence
is_handled ⇔ status ≠ in-review ⇔ final_reviewer_id ≠ null fails on the code:
after create, reject, resubmit the stored suggestion is back in review and yet
still carries the rejecting reviewer's id (resubmit_rejected_suggestion sets
the status to in-review without clearing final_reviewer_id), refuting in
particular "whenever a suggestion's status is in-review its final_reviewer_id
is null". -/
theorem C1_counterexample :
    (alGet (runOps envW cfgW initState opsW).suggestions "thread_0").map
        (fun sg => (sg.status, sg.final_reviewer_id))
      = some (Status.inReview, some "rev1") := by decide

/-- C1 (amended): after every sequence of lifecycle operations from the empty
store, is_handled coincides with status ≠ in-review, and every suggestion that
has left in-review carries a reviewer id; the remaining direction of the
claimed equivalence — an in-review suggestion carries no reviewer id — fails
after resubmission and is dropped. -/
theorem C1_amended_lifecycle_invariant (env : Env) (cfg : Config)
    (ops : List Op) (k : String) (sg : Suggestion)
    (h : alGet (runOps env cfg initState ops).suggestions k = some sg) :
    (sg.is_handled = true ↔ sg.status ≠ Status.inReview)
    ∧ (sg.status ≠ Status.inReview → sg.final_reviewer_id.isSome = true) := by
  constructor
  · simp [Suggestion.is_handled, bne_iff_ne]
  · have hinv := storeInv_runOps env cfg initState ops storeInv_initState
    exact hinv _ (alGet_mem h)

/-- Witness for C1 (amended) at the concrete create-then-reject run. -/
theorem C1_amended_lifecycle_invariant_witness :
    (sgRejW.is_handled = true ↔ sgRejW.status ≠ Status.inReview)
    ∧ sgRejW.final_reviewer_id.isSome = true :=
  have h := C1_amended_lifecycle_invariant envW cfgW opsW2 "thread_0" sgRejW
    (by decide)
  ⟨h.1, h.2 (by decide)⟩

/-- C4: the onboarding flag is monotonic — no operation ever resets a set
flag (on any scoring-well-formed world) — and across every operation sequence
from the empty world at most one onboarding e-mail is ever dispatched per
(user, category). -/
theorem C4_onboarding_email_once :
    (∀ (env : Env) (cfg : Config) (s : State) (op : Op) (u c : String),
        ScoringWF s → flagOf s u c = true
          → flagOf (step env cfg s op) u c = true)
    ∧ ∀ (env : Env) (cfg : Config) (ops : List Op) (u c : String),
        emailCount (runOps env cfg initState ops) u c ≤ 1 := by
  constructor
  · exact fun env cfg s op u c hwf hf =>
      flagOf_step_mono env cfg s op u c hwf hf
  · intro env cfg ops u c
    have h := scoring_invs_runOps env cfg initState ops
      ⟨scoringWF_initState, emailInv_initState⟩
    exact (h.2 u c).1

/-- Witness for C4's monotonicity conjunct at a concrete world and step. -/
theorem C4_onboarding_email_once_witness :
    flagOf (step envW cfgW sFlagW (Op.rejectOp [] "rev1" "msg")) "u1" "cat1"
      = true :=
  C4_onboarding_email_once.1 envW cfgW sFlagW (Op.rejectOp [] "rev1" "msg")
    "u1" "cat1" (by unfold ScoringWF; decide) (by decide)

/-- C7: accepting with a blank or whitespace-only commit message fails with
the empty-commit-message precondition error before any state mutation — the
returned world is exactly the input world, so no suggestion record, scoring
record, or thread message is created or changed. -/
theorem C7_accept_blank_commit_no_mutation (env : Env) (cfg : Config)
    (s : State) (id r cm rm : String) (h : isBlankStr cm = true) :
    accept_suggestion env cfg s id r cm rm
      = Result.err Err.emptyCommitMessage s := by
  simp [accept_suggestion, h]

/-- Witness for C7 at a whitespace-only commit message. -/
theorem C7_accept_blank_commit_no_mutation_witness :
    accept_suggestion envW cfgW initState "sid" "rev1" "  " "msg"
      = Result.err Err.emptyCommitMessage initState :=
  C7_accept_blank_commit_no_mutation envW cfgW initState "sid" "rev1" "  "
    "msg" (by decide)

/-- C3: accepting an already-handled (accepted or rejected) suggestion fails
and leaves the whole persisted world unchanged — the suggestion record, the
author's scoring record and everything else; when the commit message passes
its own earlier check the error is precisely AlreadyHandled. -/
theorem C3_accept_already_handled (env : Env) (cfg : Config) (s : State)
    (id r cm rm : String) (sg : Suggestion)
    (h1 : getSuggestion s id = some sg) (h2 : sg.is_handled = true) :
    (accept_suggestion env cfg s id r cm rm).state = s
    ∧ (accept_suggestion env cfg s id r cm rm).isOk = false
    ∧ (isBlankStr cm = false →
        accept_suggestion env cfg s id r cm rm
          = Result.err (Err.alreadyHandled id) s) := by
  by_cases hb : isBlankStr cm
  · refine ⟨?_, ?_, ?_⟩ <;> simp [accept_suggestion, hb, Result.state,
      Result.isOk]
  · have hb' : isBlankStr cm = false := by
      exact Bool.not_eq_true _ ▸ (by simpa using hb)
    refine ⟨?_, ?_, ?_⟩ <;>
      simp [accept_suggestion, hb', h1, h2, Result.state, Result.isOk]

/-- Witness for C3 at the concrete rejected suggestion. -/
theorem C3_accept_already_handled_witness :
    (accept_suggestion envW cfgW sRejW "thread_0" "rev2" "fix" "msg").state
        = sRejW
    ∧ (accept_suggestion envW cfgW sRejW "thread_0" "rev2" "fix" "msg").isOk
        = false
    ∧ accept_suggestion envW cfgW sRejW "thread_0" "rev2" "fix" "msg"
        = Result.err (Err.alreadyHandled "thread_0") sRejW :=
  have h := C3_accept_already_handled envW cfgW sRejW "thread_0" "rev2" "fix"
    "msg" sgRejW (by decide) (by decide)
  ⟨h.1, h.2.1, h.2.2 (by decide)⟩

/-- C5: resubmitting a rejected suggestion with a non-empty summary and a
change passing the pre-update shape check replaces the change, returns the
status to in-review, posts the summary to the thread — and keeps
final_reviewer_id exactly as recorded at the prior rejection. -/
theorem C5_resubmit_rejected_updates (s : State) (id sm a : String)
    (c : Change) (sg : Suggestion) (h1 : getSuggestion s id = some sg)
    (hk : sg.suggestion_id = id) (h2 : sg.status = Status.rejected)
    (h3 : sm ≠ "") (h4 : c.validShape = true) :
    resubmit_rejected_suggestion s id sm a c
      = Result.ok { s with
          suggestions := alPut s.suggestions id
            { sg with change := c, status := Status.inReview },
          messages := s.messages ++ [(id, sm)] }
    ∧ (alGet (resubmit_rejected_suggestion s id sm a c).state.suggestions
          id).map Suggestion.final_reviewer_id
        = some sg.final_reviewer_id := by
  have hh : sg.is_handled = true := by
    simp [Suggestion.is_handled, h2]
  have hacc : ¬ sg.status = Status.accepted := by
    rw [h2]
    intro hc
    cases hc
  have hmain : resubmit_rejected_suggestion s id sm a c
      = Result.ok { s with
          suggestions := alPut s.suggestions id
            { sg with change := c, status := Status.inReview },
          messages := s.messages ++ [(id, sm)] } := by
    simp only [resubmit_rejected_suggestion, getSuggestion] at *
    rw [h1]
    simp [h3, hh, hacc, h4, updateSuggestion, updateSuggestions, alPutMany,
      hk]
  refine ⟨hmain, ?_⟩
  rw [hmain]
  simp only [Result.state]
  rw [alGet_alPut]
  simp

/-- Witness for C5 at the concrete rejected suggestion. -/
theorem C5_resubmit_rejected_updates_witness :
    resubmit_rejected_suggestion sRejW "thread_0" "try again" "author1" cW
      = Result.ok { sRejW with
          suggestions := alPut sRejW.suggestions "thread_0"
            { sgRejW with change := cW, status := Status.inReview },
          messages := sRejW.messages ++ [("thread_0", "try again")] }
    ∧ (alGet (resubmit_rejected_suggestion sRejW "thread_0" "try again"
          "author1" cW).state.suggestions "thread_0").map
        Suggestion.final_reviewer_id = some sgRejW.final_reviewer_id :=
  C5_resubmit_rejected_updates sRejW "thread_0" "try again" "author1" cW
    sgRejW (by decide) (by decide) (by decide) (by decide) (by decide)

/-- C6: resubmitting an accepted suggestion always fails with a
PreconditionFailed-class error leaving the world untouched, and whenever the
summary message passes its own earlier check the error is precisely
CannotResubmitAccepted. -/
theorem C6_resubmit_accepted_fails (s : State) (id sm a : String) (c : Change)
    (sg : Suggestion) (h1 : getSuggestion s id = some sg)
    (h2 : sg.status = Status.accepted) :
    (∃ e, resubmit_rejected_suggestion s id sm a c = Result.err e s
        ∧ e.taxonomy = ErrClass.preconditionFailedClass)
    ∧ (sm ≠ "" → resubmit_rejected_suggestion s id sm a c
        = Result.err (Err.cannotResubmitAccepted id) s) := by
  by_cases hsm : sm = ""
  · constructor
    · exact ⟨Err.emptySummaryMessage,
        by simp [resubmit_rejected_suggestion, hsm], rfl⟩
    · intro h
      exact absurd hsm h
  · have hh : sg.is_handled = true := by
      simp [Suggestion.is_handled, h2]
    have hmain : resubmit_rejected_suggestion s id sm a c
        = Result.err (Err.cannotResubmitAccepted id) s := by
      simp only [resubmit_rejected_suggestion, getSuggestion] at *
      rw [h1]
      simp [hsm, hh, h2]
    exact ⟨⟨_, hmain, rfl⟩, fun _ => hmain⟩

/-- Witness for C6 at the concrete accepted suggestion. -/
theorem C6_resubmit_accepted_fails_witness :
    (∃ e, resubmit_rejected_suggestion sAccW "thread_0" "retry" "author1" cW
        = Result.err e sAccW
        ∧ e.taxonomy = ErrClass.preconditionFailedClass)
    ∧ resubmit_rejected_suggestion sAccW "thread_0" "retry" "author1" cW
        = Result.err (Err.cannotResubmitAccepted "thread_0") sAccW :=
  have h := C6_resubmit_accepted_fails sAccW "thread_0" "retry" "author1" cW
    sgAccW (by decide) (by decide)
  ⟨h.1, h.2 (by decide)⟩

/-- C9: the code, not the claim, is at fault here — resubmitting an id with
no stored suggestion reaches the is_handled attribute access on None and
crashes with an undefined AttributeError instead of raising the defined
NotFound error of the taxonomy (accept_suggestion and reject_suggestions both
guard this case explicitly; resubmit_rejected_suggestion has no None check).
No state is mutated by the crash. -/
theorem C9_resubmit_missing_id_crashes :
    resubmit_rejected_suggestion initState "missing_id" "resubmitting"
        "author1" cW = Result.crash initState := by decide

/-- C10: create_suggestion opens the feedback thread before any suggestion
validation, so both failure modes — an unrecognized suggestion type and a
translate-content HTML mismatch — leave the freshly created thread persisted
while the suggestion store is untouched (the error state differs from the
input state exactly by the appended thread and the bumped thread counter). -/
theorem C10_create_not_atomic_on_failure (env : Env) (s : State)
    (tt tid : String) (v : Nat) (a : String) (c : Change)
    (d : Option String) :
    (∀ st, st ≠ SUGGESTION_TYPE_EDIT_STATE_CONTENT
        → st ≠ SUGGESTION_TYPE_TRANSLATE_CONTENT
        → st ≠ SUGGESTION_TYPE_ADD_QUESTION
        → create_suggestion env s st tt tid v a c d
            = Result.err (Err.invalidSuggestionType st)
              { s with
                threads := s.threads ++ [freshThreadId s.nextThreadId],
                nextThreadId := s.nextThreadId + 1 })
    ∧ (tt = TARGET_TYPE_EXPLORATION
        → env.contentHtml tid c.state_name c.content_id ≠ c.content_html
        → create_suggestion env s SUGGESTION_TYPE_TRANSLATE_CONTENT tt tid v
            a c d
            = Result.err Err.contentMismatch
              { s with
                threads := s.threads ++ [freshThreadId s.nextThreadId],
                nextThreadId := s.nextThreadId + 1 }) := by
  constructor
  · intro st hn1 hn2 hn3
    simp [create_suggestion, hn1, hn2, hn3]
  · intro htt hmm
    have hne : SUGGESTION_TYPE_TRANSLATE_CONTENT
        ≠ SUGGESTION_TYPE_EDIT_STATE_CONTENT := by decide
    simp [create_suggestion, hne, htt, hmm]

/-- Witness for C10: a bogus suggestion type and the spec's own mismatch
example, both leaving the opened thread behind with no suggestion stored. -/
theorem C10_create_not_atomic_on_failure_witness :
    (create_suggestion envW initState "bogus" TARGET_TYPE_EXPLORATION "exp1"
        1 "author1" cW none
      = Result.err (Err.invalidSuggestionType "bogus")
        { initState with
          threads := initState.threads
            ++ [freshThreadId initState.nextThreadId],
          nextThreadId := initState.nextThreadId + 1 })
    ∧ (create_suggestion envW initState SUGGESTION_TYPE_TRANSLATE_CONTENT
        TARGET_TYPE_EXPLORATION "exp1" 1 "author1" cMismatchW none
      = Result.err Err.contentMismatch
        { initState with
          threads := initState.threads
            ++ [freshThreadId initState.nextThreadId],
          nextThreadId := initState.nextThreadId + 1 }) :=
  ⟨(C10_create_not_atomic_on_failure envW initState TARGET_TYPE_EXPLORATION
      "exp1" 1 "author1" cW none).1 "bogus" (by decide) (by decide)
      (by decide),
   (C10_create_not_atomic_on_failure envW initState TARGET_TYPE_EXPLORATION
      "exp1" 1 "author1" cMismatchW none).2 (by decide) (by decide)⟩

/-- Suggestion-store well-formedness: each record sits under its own id. -/
def SuggKeyWF (s : State) : Prop :=
  ∀ p ∈ s.suggestions, p.2.suggestion_id = p.1

theorem fav_ok_of_good (s : State) (ids : List String)
    (h : ∀ id ∈ ids,
      (getSuggestion s id).map Suggestion.is_handled = some false) :
    fetchAndValidate s ids
      = Except.ok (ids.map (fun id =>
          (getSuggestion s id).getD dummySuggestion)) := by
  induction ids with
  | nil => rfl
  | cons id rest ih =>
      have hid := h id (List.mem_cons_self id rest)
      cases hg : getSuggestion s id with
      | none =>
          rw [hg] at hid
          simp at hid
      | some sg =>
          rw [hg] at hid
          simp only [Option.map_some'] at hid
          have hh : sg.is_handled = false := Option.some.inj hid
          have ihh := ih (fun j hj => h j (List.mem_cons_of_mem id hj))
          simp only [fetchAndValidate, hg, hh]
          rw [ihh]
          simp [Except.map, hg]

theorem fav_err_of_bad (s : State) (ids : List String)
    (h : ∃ id ∈ ids,
      (getSuggestion s id).map Suggestion.is_handled ≠ some false) :
    ∃ e, fetchAndValidate s ids = Except.error e := by
  induction ids with
  | nil =>
      obtain ⟨id, hm, _⟩ := h
      cases hm
  | cons id rest ih =>
      cases hg : getSuggestion s id with
      | none => exact ⟨Err.notFound id, by simp [fetchAndValidate, hg]⟩
      | some sg =>
          by_cases hh : sg.is_handled = true
          · exact ⟨Err.alreadyHandled id, by simp [fetchAndValidate, hg, hh]⟩
          · have hh' : sg.is_handled = false := by
              cases hb : sg.is_handled
              · rfl
              · exact absurd hb hh
            obtain ⟨id0, hm0, hbad⟩ := h
            rcases List.mem_cons.mp hm0 with h0 | h0
            · subst h0
              rw [hg] at hbad
              simp [hh'] at hbad
            · obtain ⟨e, he⟩ := ih ⟨id0, h0, hbad⟩
              refine ⟨e, ?_⟩
              simp [fetchAndValidate, hg, hh', he, Except.map]

/-- C2: reject_suggestions is all-or-nothing.  If any id of the batch is
absent or already handled, the call fails with the state returned exactly as
given — no suggestion of the batch (valid ones included) is changed.  If all
are present and unhandled and the review message passes its own check, the
call succeeds, every batched suggestion is stored rejected with the reviewer
recorded (all other fields untouched), persisted through the single batch
write, and suggestions outside the batch are untouched. -/
theorem C2_reject_many_all_or_nothing (s : State) (ids : List String)
    (r msg : String) :
    ((∃ id ∈ ids,
        (getSuggestion s id).map Suggestion.is_handled ≠ some false)
      → ∃ e, reject_suggestions s ids r msg = Result.err e s)
    ∧ (SuggKeyWF s
      → (∀ id ∈ ids,
          (getSuggestion s id).map Suggestion.is_handled = some false)
      → msg ≠ ""
      → (reject_suggestions s ids r msg).isOk = true
        ∧ (∀ id ∈ ids,
            alGet (reject_suggestions s ids r msg).state.suggestions id
              = some { (getSuggestion s id).getD dummySuggestion with
                  status := Status.rejected, final_reviewer_id := some r })
        ∧ ∀ j, j ∉ ids →
            alGet (reject_suggestions s ids r msg).state.suggestions j
              = alGet s.suggestions j) := by
  constructor
  · intro hbad
    obtain ⟨e, he⟩ := fav_err_of_bad s ids hbad
    exact ⟨e, by simp [reject_suggestions, he]⟩
  · intro hwf hgood hmsg
    have hfav := fav_ok_of_good s ids hgood
    have hpairs :
        (List.map (fun id => (getSuggestion s id).getD dummySuggestion) ids
          |>.map (fun sg =>
            { sg with status := Status.rejected,
                      final_reviewer_id := some r })
          |>.map (fun sg => (sg.suggestion_id, sg)))
        = ids.map (fun id =>
            (id, { (getSuggestion s id).getD dummySuggestion with
                status := Status.rejected, final_reviewer_id := some r })) := by
      rw [List.map_map, List.map_map]
      apply List.map_congr_left
      intro id hid
      have hgd := hgood id hid
      cases hg : getSuggestion s id with
      | none => rw [hg] at hgd; simp at hgd
      | some sg =>
          have hkey : sg.suggestion_id = id := hwf _ (alGet_mem hg)
          simp [hg, hkey]
    have hstate :
        (reject_suggestions s ids r msg).state.suggestions
          = alPutMany s.suggestions
              (ids.map (fun id =>
                (id, { (getSuggestion s id).getD dummySuggestion with
                    status := Status.rejected,
                    final_reviewer_id := some r }))) := by
      simp only [reject_suggestions, hfav, hmsg, if_neg, Result.state,
        updateSuggestions]
      rw [← hpairs]
      simp [Result.state]
    refine ⟨?_, ?_, ?_⟩
    · simp [reject_suggestions, hfav, hmsg, Result.isOk]
    · intro id hid
      rw [hstate, alGet_alPutMany_const]
      simp [hid]
    · intro j hj
      rw [hstate, alGet_alPutMany_const]
      simp [hj]

/-- Two unhandled in-review suggestions for the batch witnesses. -/
def sg1W : Suggestion :=
  { sgW with suggestion_id := "t1" }

/-- Second unhandled in-review suggestion. -/
def sg2W : Suggestion :=
  { sgW with suggestion_id := "t2" }

/-- World holding the two unhandled suggestions. -/
def sTwoW : State :=
  { initState with suggestions := [("t1", sg1W), ("t2", sg2W)] }

/-- Witness for C2 on concrete batches: success on two unhandled ids with
both records rejected and an outside record untouched, and the all-or-nothing
failure on a batch containing a missing id. -/
theorem C2_reject_many_all_or_nothing_witness :
    (reject_suggestions sTwoW ["t1", "t2"] "rev1" "msg").isOk = true
    ∧ alGet (reject_suggestions sTwoW ["t1", "t2"] "rev1"
          "msg").state.suggestions "t1"
        = some { (getSuggestion sTwoW "t1").getD dummySuggestion with
            status := Status.rejected, final_reviewer_id := some "rev1" }
    ∧ alGet (reject_suggestions sTwoW ["t1", "t2"] "rev1"
          "msg").state.suggestions "t2"
        = some { (getSuggestion sTwoW "t2").getD dummySuggestion with
            status := Status.rejected, final_reviewer_id := some "rev1" }
    ∧ alGet (reject_suggestions sTwoW ["t1", "t2"] "rev1"
          "msg").state.suggestions "zzz"
        = alGet sTwoW.suggestions "zzz"
    ∧ ∃ e, reject_suggestions sTwoW ["t1", "missing"] "rev1" "msg"
        = Result.err e sTwoW :=
  have h := (C2_reject_many_all_or_nothing sTwoW ["t1", "t2"] "rev1"
    "msg").2 (by unfold SuggKeyWF; decide) (by decide) (by decide)
  have hfail := (C2_reject_many_all_or_nothing sTwoW ["t1", "missing"]
    "rev1" "msg").1 (by decide)
  ⟨h.1, h.2.1 "t1" (by decide), h.2.1 "t2" (by decide),
   h.2.2 "zzz" (by decide), hfail⟩

/-- C8: the claim extends the blank-message precondition to whitespace-only
review messages, but reject_suggestions only tests Python falsiness (the
empty string): a batch of valid unhandled suggestions rejected with the
one-space message " " succeeds and mutates the store, refuting the claim. -/
theorem C8_counterexample :
    (reject_suggestions sTwoW ["t1"] "rev1" " ").isOk = true
    ∧ (alGet (reject_suggestions sTwoW ["t1"] "rev1"
        " ").state.suggestions "t1").map (fun sg => sg.status)
      = some Status.rejected := by decide

/-- C8 (amended): only an *empty* review message is treated as blank — the
call then fails with no suggestion mutated (the input world is returned
as-is), and when every referenced suggestion exists and is unhandled the
error is precisely the PreconditionFailed empty-review-message error; a
whitespace-only message passes the check. -/
theorem C8_amended_reject_empty_message (s : State) (ids : List String)
    (r : String) :
    ((reject_suggestions s ids r "").isOk = false
      ∧ (reject_suggestions s ids r "").state = s)
    ∧ ((∀ id ∈ ids,
          (getSuggestion s id).map Suggestion.is_handled = some false)
      → reject_suggestions s ids r ""
          = Result.err Err.emptyReviewMessage s) := by
  constructor
  · constructor <;>
    · simp only [reject_suggestions]
      split
      · simp [Result.isOk, Result.state]
      · simp [Result.isOk, Result.state]
  · intro hgood
    have hfav := fav_ok_of_good s ids hgood
    simp [reject_suggestions, hfav]

/-- Witness for C8 (amended) on a concrete valid batch. -/
theorem C8_amended_reject_empty_message_witness :
    reject_suggestions sTwoW ["t1"] "rev1" ""
      = Result.err Err.emptyReviewMessage sTwoW :=
  (C8_amended_reject_empty_message sTwoW ["t1"] "rev1").2 (by decide)
